import Mathlib

/-!
Formal model of the ragflow-core retrieval-and-context-assembly pipeline.

The Python services under `backend/app/services/` are embedded shallowly:
text is `List Char`, Python string primitives (`strip`, `rfind`, slicing,
`find`, `split`, `re.sub(r"\s+", " ", ·)`) are modelled with explicit
functions reproducing CPython semantics on the ASCII range, similarity
scores are `ℚ` (Python floats enter only through order comparisons and
exact decimal constants here), and the possibly-nonterminating chunking
walk of `TextProcessor.chunk_text` is given a fuel parameter, returning
`none` when the fuel runs out.
-/

/-- Convert a Lean string literal to the `List Char` representation used
throughout the model. -/
def pystr (s : String) : List Char := s.data

/-- Python `str.isspace` / regex `\s` on the ASCII range: space, tab,
newline, carriage return, vertical tab, form feed. -/
def pyIsSpace (c : Char) : Bool :=
  c == ' ' || c == '\t' || c == '\n' || c == '\r' || c == Char.ofNat 11 || c == Char.ofNat 12

/-- Python `str.strip()`: drop leading and trailing whitespace. -/
def pyStrip (l : List Char) : List Char :=
  ((l.dropWhile pyIsSpace).reverse.dropWhile pyIsSpace).reverse

/-- Python `str.lower()` (ASCII case folding suffices for the texts in scope). -/
def pyLower (l : List Char) : List Char := l.map Char.toLower

/-- Helper for `pySplit`: accumulates the current word (reversed). -/
def pySplitAux : List Char → List Char → List (List Char)
  | [], acc => if acc.isEmpty then [] else [acc.reverse]
  | c :: cs, acc =>
    if pyIsSpace c then
      if acc.isEmpty then pySplitAux cs [] else acc.reverse :: pySplitAux cs []
    else pySplitAux cs (c :: acc)

/-- Python `str.split()` with no argument: split on whitespace runs,
discarding empty fields. -/
def pySplit (l : List Char) : List (List Char) := pySplitAux l []

/-- Clamp a (possibly negative) Python index into `[0, n]`, as CPython
does for `str.rfind` bounds and slice bounds. -/
def pyAdjustIndex (n : Nat) (i : Int) : Nat :=
  if i < 0 then ((n : Int) + i).toNat else min i.toNat n

/-- Scan downward from `e - 1` to `lo` looking for character `c`; the
recursion argument is the exclusive upper bound. -/
def pyRfindAux (c : Char) (s : List Char) (lo : Nat) : Nat → Int
  | 0 => -1
  | n + 1 => if decide (lo ≤ n) && (s[n]? == some c) then (n : Int) else pyRfindAux c s lo n

/-- Python `text.rfind(c, b, e)` for a single-character needle: highest
index `i` with `b ≤ i < e` (after clamping) and `text[i] = c`, else `-1`. -/
def pyRfind (c : Char) (s : List Char) (b e : Int) : Int :=
  pyRfindAux c s (pyAdjustIndex s.length b) (pyAdjustIndex s.length e)

/-- Python slice `s[b:e]` with CPython clamping of negative indices. -/
def pySlice (s : List Char) (b e : Int) : List Char :=
  (s.take (pyAdjustIndex s.length e)).drop (pyAdjustIndex s.length b)

/-- Scan upward from index `i` looking for an occurrence of `needle`. -/
def pyFindSubAux (hay needle : List Char) : Nat → Nat → Option Nat
  | 0, _ => none
  | fuel + 1, i =>
    if needle.isPrefixOf (hay.drop i) then some i else pyFindSubAux hay needle fuel (i + 1)

/-- Python `hay.find(needle, start)` returning `none` for `-1`: least
index `i ≥ start` where `needle` occurs in `hay`. -/
def pyFindSubFrom (hay needle : List Char) (start : Nat) : Option Nat :=
  pyFindSubAux hay needle (hay.length + 1 - start) start

/-- Python `needle in hay` substring test. -/
def pyContains (hay needle : List Char) : Bool :=
  (pyFindSubFrom hay needle 0).isSome

/-- Helper for `collapseWs`: the flag records whether the previous kept
character position was inside a whitespace run. -/
def collapseWsAux : Bool → List Char → List Char
  | _, [] => []
  | prevWs, c :: rest =>
    if pyIsSpace c then
      if prevWs then collapseWsAux true rest else ' ' :: collapseWsAux true rest
    else c :: collapseWsAux false rest

/-- Python `re.sub(r"\s+", " ", l)`: each maximal whitespace run becomes
a single space. -/
def collapseWs (l : List Char) : List Char := collapseWsAux false l

/-!
Chunker: `TextProcessor.chunk_text` (backend/app/services/text_processor.py,
lines 35-67). The window-end computation and the while-loop are embedded
separately; the loop takes fuel because the walk does not always terminate.
-/

/-- End-of-window computation for one iteration of the `chunk_text` walk:
`end = start + chunk_size`, then if the window ends strictly inside the
text, prefer the last `'.'` past the window midpoint (period included),
then the last `' '` past the midpoint, else keep the hard cut. -/
def chunkEnd (text : List Char) (start : Int) (csize : Nat) : Int :=
  let e0 : Int := start + (csize : Int)
  if e0 < (text.length : Int) then
    let sentence_end := pyRfind '.' text start e0
    if sentence_end > start + ((csize / 2 : Nat) : Int) then sentence_end + 1
    else
      let word_end := pyRfind ' ' text start e0
      if word_end > start + ((csize / 2 : Nat) : Int) then word_end else e0
  else e0

/-- The `while start < len(text)` walk of `chunk_text`: slice the window,
strip it, append it when non-empty, advance `start = end - overlap`.
Returns `none` when the fuel is exhausted before the walk finishes. -/
def chunkLoop (text : List Char) (csize ov : Nat) : Nat → Int → List (List Char) → Option (List (List Char))
  | 0, _, _ => none
  | fuel + 1, start, acc =>
    if start < (text.length : Int) then
      let e := chunkEnd text start csize
      let chunk := pyStrip (pySlice text start e)
      chunkLoop text csize ov fuel (e - (ov : Int)) (if chunk.isEmpty then acc else acc ++ [chunk])
    else some acc

/-- `TextProcessor.chunk_text(text, chunk_size, overlap)`. The
`chunk_size or settings.chunk_size` / `overlap or settings.chunk_overlap`
idiom replaces an argument of `0` by the configured defaults 1000 / 200.
A text no longer than the chunk size is returned whole; otherwise the
walk starts at 0 with an empty accumulator. -/
def chunk_text (fuel : Nat) (text : List Char) (chunkSize overlap : Nat) : Option (List (List Char)) :=
  let cs := if chunkSize = 0 then 1000 else chunkSize
  let ov := if overlap = 0 then 200 else overlap
  if text.length ≤ cs then some [text]
  else chunkLoop text cs ov fuel 0 []

/-- Claim-side reading of the chunk-cut rule (spec 4.2): the latest
position `p` in the window `[start, start + csize)` holding a period that
is immediately followed by a space, subject to `p > start + csize / 2`. -/
def specLatestSentenceTerminator (text : List Char) (start csize : Nat) : Option Nat :=
  ((List.range (start + csize)).filter
    (fun p => decide (start ≤ p) && (text[p]? == some '.') &&
      (text[p+1]? == some ' ') && decide (start + csize / 2 < p))).getLast?

/-- Input exhibiting the stuck walk for `overlap < chunk_size`:
with window size 10 and overlap 7, the word-boundary cut at the space
(index 8) gives `end = 8`, so `start` becomes `8 - 7 = 1` and stays 1. -/
def c2Text : List Char := pystr "abcdefgh ijk"

/-- Input exhibiting the stuck walk for `overlap = chunk_size`: no space
or period, so every window is a hard cut and `start` never advances. -/
def c3Text : List Char := pystr "abcdefghijkl"

theorem c2_loop_stuck : ∀ (fuel : Nat) (acc : List (List Char)),
    chunkLoop c2Text 10 7 fuel 1 acc = none := by
  intro fuel
  induction fuel with
  | zero => intro acc; rfl
  | succ n ih =>
    intro acc
    have hend : chunkEnd c2Text 1 10 = 8 := by decide
    simp only [chunkLoop, hend]
    norm_num [c2Text, pystr]
    exact ih _

/-- C2: for text "abcdefgh ijk", chunk size 10 and overlap 7 (a valid
configuration with overlap < chunk size), the chunking walk never
terminates: whatever fuel it is given runs out, because the word-boundary
cut fixes `start` at 1 forever. -/
theorem chunk_text_c2_nonterminating : ∀ fuel : Nat, chunk_text fuel c2Text 10 7 = none := by
  intro fuel
  cases fuel with
  | zero => rfl
  | succ n =>
    have hend : chunkEnd c2Text 0 10 = 8 := by decide
    simp only [chunk_text, chunkLoop, hend]
    norm_num [c2Text, pystr]
    exact c2_loop_stuck _ _

theorem c3_loop_stuck : ∀ (fuel : Nat) (acc : List (List Char)),
    chunkLoop c3Text 10 10 fuel 0 acc = none := by
  intro fuel
  induction fuel with
  | zero => intro acc; rfl
  | succ n ih =>
    intro acc
    have hend : chunkEnd c3Text 0 10 = 10 := by decide
    simp only [chunkLoop, hend]
    norm_num [c3Text, pystr]
    exact ih _

/-- C3: for a 12-character text with chunk size 10 and overlap 10
(overlap ≥ chunk size), `chunk_text` does not fail fast with a
configuration error — no such error exists in the code — and the walk
never terminates: `start` is stuck at 0. -/
theorem chunk_text_c3_no_fail_fast : ∀ fuel : Nat, chunk_text fuel c3Text 10 10 = none := by
  intro fuel
  cases fuel with
  | zero => rfl
  | succ n =>
    simp only [chunk_text]
    norm_num [c3Text, pystr]
    exact c3_loop_stuck _ _

/-- Window containing a sentence terminator `". "` at position 6 (past the
midpoint 5) and a bare period at position 8 that is not followed by a
space; the code cuts at the bare period. -/
def c8Text : List Char := pystr "abcdef. .xZZ"

/-- C8 counterexample: in the first window of "abcdef. .xZZ" with chunk
size 10, the latest period-followed-by-space past the midpoint is at
position 6, so the claim mandates the cut `end = 7` and first chunk
"abcdef."; the code instead cuts at the bare period at position 8
(`end = 9`), producing first chunk "abcdef. .". -/
theorem chunk_text_c8_counterexample :
    specLatestSentenceTerminator c8Text 0 10 = some 6 ∧
    chunk_text 10 c8Text 10 2 = some [pystr "abcdef. .", pystr ".xZZ"] ∧
    pyStrip (pySlice c8Text 0 (6 + 1)) = pystr "abcdef." ∧
    pystr "abcdef. ." ≠ pystr "abcdef." := by
  refine ⟨by decide, by decide, by decide, by decide⟩

theorem pyRfindAux_eq_of_latest (c : Char) (s : List Char) (lo p : Nat)
    (hlo : lo ≤ p) (hc : s[p]? = some c) :
    ∀ e, p < e → (∀ q, q < e → p < q → s[q]? ≠ some c) →
      pyRfindAux c s lo e = (p : Int) := by
  intro e
  induction e with
  | zero => intro h; omega
  | succ n ih =>
    intro hpe hlatest
    by_cases hpn : p = n
    · subst hpn
      have hcond : (decide (lo ≤ p) && (s[p]? == some c)) = true := by
        simp [hlo, hc]
      simp [pyRfindAux, hcond]
    · have hpn' : p < n := by omega
      have hnot : s[n]? ≠ some c := hlatest n (by omega) (by omega)
      have hcond : (decide (lo ≤ n) && (s[n]? == some c)) = false := by
        simp only [Bool.and_eq_false_iff, beq_eq_false_iff_ne, ne_eq]
        right
        exact hnot
      simp only [pyRfindAux, hcond, Bool.false_eq_true, if_false]
      exact ih hpn' (fun q hq hpq => hlatest q (by omega) hpq)

theorem pyAdjustIndex_natCast (n m : Nat) : pyAdjustIndex n (m : Int) = min m n := by
  simp [pyAdjustIndex]

/-- C8 amended: in a window `[start, start + csize)` that ends strictly
inside the text, if the latest period in the window — followed by a space
or not — sits at position `p` past the window midpoint, the chunk is cut
at `end = p + 1`, taking priority over word-boundary and hard cuts.
(The code searches with `text.rfind('.', start, end)`, so the
followed-by-space requirement of the original claim is not imposed.) -/
theorem chunkEnd_cuts_at_latest_period (text : List Char) (start csize p : Nat)
    (hwin : start + csize < text.length)
    (hpge : start ≤ p) (hplt : p < start + csize)
    (hdot : text[p]? = some '.')
    (hlatest : ∀ q, q < start + csize → p < q → text[q]? ≠ some '.')
    (hmid : start + csize / 2 < p) :
    chunkEnd text (start : Int) csize = (p : Int) + 1 := by
  have he0 : ((start : Int) + (csize : Int)) < (text.length : Int) := by
    exact_mod_cast hwin
  have hb : pyAdjustIndex text.length (start : Int) = start := by
    rw [pyAdjustIndex_natCast]
    omega
  have he : pyAdjustIndex text.length ((start : Int) + (csize : Int)) = start + csize := by
    have : ((start : Int) + (csize : Int)) = ((start + csize : Nat) : Int) := by push_cast; ring
    rw [this, pyAdjustIndex_natCast]
    omega
  have hrfind : pyRfind '.' text (start : Int) ((start : Int) + (csize : Int)) = (p : Int) := by
    unfold pyRfind
    rw [hb, he]
    exact pyRfindAux_eq_of_latest '.' text start p hpge hdot (start + csize) hplt hlatest
  have hgt : (p : Int) > (start : Int) + ((csize / 2 : Nat) : Int) := by
    exact_mod_cast hmid
  simp only [chunkEnd, if_pos he0, hrfind, if_pos hgt]

theorem chunkEnd_cuts_at_latest_period_witness :
    chunkEnd c8Text ((0 : Nat) : Int) 10 = ((8 : Nat) : Int) + 1 :=
  chunkEnd_cuts_at_latest_period c8Text 0 10 8 (by decide) (by decide) (by decide)
    (by decide) (by decide) (by decide)

/-- C10: whenever the text is no longer than the chunk size, `chunk_text`
returns exactly one segment equal to the whole text, independent of the
overlap and of the fuel. -/
theorem chunk_text_single_segment (fuel : Nat) (text : List Char) (chunkSize overlap : Nat)
    (h : text.length ≤ chunkSize) :
    chunk_text fuel text chunkSize overlap = some [text] := by
  by_cases h0 : chunkSize = 0
  · have : text = [] := List.eq_nil_of_length_eq_zero (by omega)
    subst this
    simp [chunk_text]
  · simp [chunk_text, h0, h]

theorem chunk_text_single_segment_witness :
    chunk_text 1 (pystr "Hello world, this is a test.") 1000 200 =
      some [pystr "Hello world, this is a test."] :=
  chunk_text_single_segment 1 (pystr "Hello world, this is a test.") 1000 200 (by decide)

/-!
Search service: `SearchService.semantic_search`, `_is_relevant_content`,
`_clean_and_highlight_text` (backend/app/services/search_service.py), and
the Qdrant filter built by `VectorService.search`
(backend/app/services/vector_service.py, lines 99-134).
-/

/-- One regex match attempt of `https?://[^\s]+` anchored at the head of
`l`: scheme prefix (longer alternative first, as the regex is greedy on
`s?`), then at least one non-whitespace character, consumed greedily.
Returns the match and the remainder after it. -/
def urlMatchAt (l : List Char) : Option (List Char × List Char) :=
  let attempt := fun (scheme : List Char) =>
    if scheme.isPrefixOf l then
      let after := l.drop scheme.length
      let body := after.takeWhile (fun c => !pyIsSpace c)
      if body.isEmpty then none else some (scheme ++ body, after.drop body.length)
    else none
  match attempt (pystr "https://") with
  | some r => some r
  | none => attempt (pystr "http://")

/-- Python `re.findall(r"https?://[^\s]+", l)`: leftmost, non-overlapping,
greedy matches. The fuel is the length of the remaining text. -/
def findUrls : Nat → List Char → List (List Char)
  | 0, _ => []
  | _, [] => []
  | fuel + 1, c :: rest =>
    match urlMatchAt (c :: rest) with
    | some (m, rem) => m :: findUrls fuel rem
    | none => findUrls fuel rest

/-- Character class `[a-f0-9]` of the hex-noise regex. -/
def isHexLower (c : Char) : Bool :=
  ('a' ≤ c && c ≤ 'f') || ('0' ≤ c && c ≤ '9')

/-- Python `re.findall(r"[a-f0-9]{32,}", l)`: each maximal hex run of
length at least 32 yields exactly one (greedy) match; shorter runs yield
none. The fuel is the length of the remaining text. -/
def findHexRuns : Nat → List Char → List (List Char)
  | 0, _ => []
  | _, [] => []
  | fuel + 1, c :: rest =>
    if isHexLower c then
      let run := (c :: rest).takeWhile isHexLower
      let rem := (c :: rest).drop run.length
      if 32 ≤ run.length then run :: findHexRuns fuel rem else findHexRuns fuel rem
    else findHexRuns fuel rest

/-- `SearchService._is_relevant_content(text, query)`: discard fragments
shorter than 20 characters after stripping, fragments that are more than
70 percent URL characters, fragments with more than two 32+-character hex
runs; for queries of at most two words require one query word longer than
two characters to occur as a substring of the lowercased text. The float
literal `0.7` is modelled by the rational `7/10` (it enters only through
an order comparison between integers). -/
def is_relevant_content (text query : List Char) : Bool :=
  if (pyStrip text).length < 20 then false
  else if text.length * 7 < ((findUrls text.length text).foldl (fun a u => a ++ u) []).length * 10 then false
  else if 2 < (findHexRuns text.length text).length then false
  else
    let query_words := pySplit (pyLower query)
    let text_lower := pyLower text
    if query_words.length ≤ 2 then
      (query_words.filter (fun w => 2 < w.length)).any (fun w => pyContains text_lower w)
    else true

/-- `SearchService._clean_and_highlight_text(text, query)`: strip, collapse
whitespace runs, and when longer than 500 characters cut at
`text.find(". ", 400)` when that lands past 300 (it is at least 400
whenever found), else hard-truncate at 500; an ellipsis is appended on
truncation. The `query` argument is unused in the code. -/
def clean_and_highlight_text (text query : List Char) : List Char :=
  let t := collapseWs (pyStrip text)
  if 500 < t.length then
    match pyFindSubFrom t (pystr ". ") 400 with
    | some cutoff =>
      if 300 < cutoff then t.take (cutoff + 1) ++ pystr "..."
      else t.take 500 ++ pystr "..."
    | none => t.take 500 ++ pystr "..."
  else t

/-- A raw vector hit as formatted by `VectorService.search` (id, score,
and the point payload fields). -/
structure RawHit where
  id : List Char
  score : ℚ
  document_id : List Char
  text : List Char
  chunk_index : Nat
  timestamp : Option (List Char)
  embedding_model : Option (List Char)
deriving DecidableEq

/-- The document row fields `semantic_search` denormalizes into results. -/
structure DocInfo where
  filename : List Char
  content_type : List Char
deriving DecidableEq

/-- `schemas.search.SearchResult` as assembled by `semantic_search`. -/
structure SearchResult where
  id : List Char
  score : ℚ
  document_id : List Char
  text : List Char
  chunk_index : Nat
  timestamp : Option (List Char)
  embedding_model : Option (List Char)
  document_filename : List Char
  document_type : List Char
deriving DecidableEq

/-- The enhanced result built for an accepted hit. -/
def mkSearchResult (h : RawHit) (doc : DocInfo) (query : List Char) : SearchResult :=
  { id := h.id, score := h.score, document_id := h.document_id,
    text := clean_and_highlight_text h.text query, chunk_index := h.chunk_index,
    timestamp := h.timestamp, embedding_model := h.embedding_model,
    document_filename := doc.filename, document_type := doc.content_type }

/-- The `for result in vector_results` loop of `semantic_search`: skip
hits whose document was already accepted, whose document row is missing,
or whose text fails the relevance gate; otherwise mark the document seen,
append the enhanced result, and stop once `top_k` results are collected. -/
def semanticSearchLoop (db : List Char → Option DocInfo) (query : List Char) (top_k : Nat) :
    List RawHit → List (List Char) → List SearchResult → List SearchResult
  | [], _, results => results
  | h :: rest, seen, results =>
    if h.document_id ∈ seen then semanticSearchLoop db query top_k rest seen results
    else
      match db h.document_id with
      | none => semanticSearchLoop db query top_k rest seen results
      | some doc =>
        if is_relevant_content h.text query then
          let results2 := results ++ [mkSearchResult h doc query]
          if top_k ≤ results2.length then results2
          else semanticSearchLoop db query top_k rest (h.document_id :: seen) results2
        else semanticSearchLoop db query top_k rest seen results

/-- Python `list.sort(key=lambda x: x.score, reverse=True)`: a stable
descending sort by score. CPython timsort is stable, and so is insertion
sort with the reflexive relation `b.score ≤ a.score` (an element is
inserted before the first strictly-lower-or-equal-scored element of the
already-sorted suffix, keeping equal-scored elements in original order),
so the two agree. -/
def sortByScoreDesc (l : List SearchResult) : List SearchResult :=
  l.insertionSort (fun a b => b.score ≤ a.score)

/-- `SearchService.semantic_search` from the point where the raw vector
hits are available: the external vector search (an awaited network call)
is a parameter; the dedup/filter loop runs, then results are re-sorted by
descending score. -/
def semantic_search_results (vector_results : List RawHit) (db : List Char → Option DocInfo)
    (query : List Char) (top_k : Nat) : List SearchResult :=
  sortByScoreDesc (semanticSearchLoop db query top_k vector_results [] [])

/-- The Qdrant `FieldCondition(key=..., match=MatchValue(value=...))`
built by `VectorService.search`. -/
structure FieldCondition where
  key : List Char
  value : List Char
deriving DecidableEq

/-- The `query_filter` construction of `VectorService.search`: for a
truthy `document_ids` list, a `Filter` whose `must` clause holds one
`FieldCondition` per document id, all on the payload key `document_id`. -/
def buildQueryFilter (document_ids : Option (List (List Char))) : Option (List FieldCondition) :=
  match document_ids with
  | none => none
  | some ids => if ids.isEmpty then none else some (ids.map (fun d => ⟨pystr "document_id", d⟩))

/-- Modelled from the spec: the Qdrant vector index is an external service
(spec sections 4.3 and 6 give its call contract only), so its filter
semantics is not in the repository. A `must` filter accepts a point iff
every listed condition holds, and a `MatchValue` condition holds iff the
payload value stored under the condition key equals the given value; the
payload is modelled as an association list. -/
def satisfiesFilter (filter : Option (List FieldCondition)) (payload : List (List Char × List Char)) : Bool :=
  match filter with
  | none => true
  | some conds => conds.all (fun c => payload.lookup c.key == some c.value)

/-- C6: the filter built from the two document ids "a" and "b" puts both
equality conditions in the `must` (conjunction) clause, so a point that
belongs to document "a" — which the claim says satisfies the filter —
fails it, as does a point of document "b"; only the single-id filter
behaves as claimed. -/
theorem vector_filter_c6_conjunction :
    satisfiesFilter (buildQueryFilter (some [pystr "a"])) [(pystr "document_id", pystr "a")] = true ∧
    satisfiesFilter (buildQueryFilter (some [pystr "a", pystr "b"])) [(pystr "document_id", pystr "a")] = false ∧
    satisfiesFilter (buildQueryFilter (some [pystr "a", pystr "b"])) [(pystr "document_id", pystr "b")] = false := by
  exact ⟨by decide, by decide, by decide⟩

/-- Period-followed-by-space at position `i` — the sentence boundary
`". "` that the cleanup stage prefers to cut at. -/
def dotSpaceAt (t : List Char) (i : Nat) : Prop :=
  t[i]? = some '.' ∧ t[i + 1]? = some ' '

theorem isPrefixOf_pair_iff (a b : Char) (l : List Char) :
    ([a, b].isPrefixOf l = true) ↔ (l[0]? = some a ∧ l[1]? = some b) := by
  rw [List.isPrefixOf_iff_prefix]
  cases l with
  | nil => simp
  | cons x xs =>
    cases xs with
    | nil => simp [List.cons_prefix_cons]
    | cons y ys => simp [List.cons_prefix_cons, eq_comm]

theorem dotSpace_isPrefixOf (t : List Char) (i : Nat) :
    ((pystr ". ").isPrefixOf (t.drop i) = true) ↔ dotSpaceAt t i := by
  have h0 : (t.drop i)[0]? = t[i]? := by
    have := List.getElem?_drop t i 0
    simpa using this
  have h1 : (t.drop i)[1]? = t[i + 1]? := List.getElem?_drop t i 1
  rw [show pystr ". " = ['.', ' '] from rfl, isPrefixOf_pair_iff, h0, h1]
  rfl

theorem pyFindSubAux_eq_none (hay needle : List Char) :
    ∀ (fuel i : Nat), (∀ j, i ≤ j → j < i + fuel → needle.isPrefixOf (hay.drop j) = false) →
      pyFindSubAux hay needle fuel i = none := by
  intro fuel
  induction fuel with
  | zero => intro i _; rfl
  | succ n ih =>
    intro i h
    have hi : needle.isPrefixOf (hay.drop i) = false := h i (by omega) (by omega)
    simp only [pyFindSubAux, hi, Bool.false_eq_true, if_false]
    exact ih (i + 1) (fun j hj1 hj2 => h j (by omega) (by omega))

theorem pyFindSubAux_eq_some (hay needle : List Char) (j : Nat)
    (hj : needle.isPrefixOf (hay.drop j) = true) :
    ∀ (fuel i : Nat), i ≤ j → j < i + fuel →
      (∀ k, k < j → i ≤ k → needle.isPrefixOf (hay.drop k) = false) →
      pyFindSubAux hay needle fuel i = some j := by
  intro fuel
  induction fuel with
  | zero => intro i _ h2; omega
  | succ n ih =>
    intro i h1 h2 hmin
    by_cases hij : i = j
    · subst hij
      simp [pyFindSubAux, hj]
    · have hfalse : needle.isPrefixOf (hay.drop i) = false := hmin i (by omega) (by omega)
      simp only [pyFindSubAux, hfalse, Bool.false_eq_true, if_false]
      exact ih (i + 1) (by omega) (by omega) (fun k hk1 hk2 => hmin k hk1 (by omega))

/-- Input on which the cleanup stage exceeds its advertised bound: 600
characters whose only sentence boundary sits at index 550, past the
500-character truncation target. -/
def c7Text : List Char := List.replicate 550 'a' ++ pystr ". " ++ List.replicate 48 'b'

set_option maxRecDepth 40000 in
/-- C7 counterexample: on `c7Text` the cleanup produces 554 characters —
the cut lands at the first `". "` at or after index 400, which here is at
index 550, so the display text is NOT bounded by 500 characters plus the
ellipsis marker. -/
theorem clean_text_c7_counterexample :
    (clean_and_highlight_text c7Text (pystr "q")).length = 554 ∧
    ¬ ((clean_and_highlight_text c7Text (pystr "q")).length ≤ 500 + (pystr "...").length) := by
  exact ⟨by decide, by decide⟩

/-- C7 amended: after whitespace collapsing, a text of at most 500
characters is returned unchanged; a longer text is cut at the FIRST
`". "` boundary at or after index 400 (period included, ellipsis
appended) whenever one exists — a cut that may exceed 500 characters, as
the search is not bounded above — and only when no such boundary exists
is the text hard-truncated to exactly 500 characters plus the 3-character
ellipsis. -/
theorem clean_text_c7_amended (text query : List Char) :
    ((collapseWs (pyStrip text)).length ≤ 500 →
      clean_and_highlight_text text query = collapseWs (pyStrip text)) ∧
    (500 < (collapseWs (pyStrip text)).length →
      ((∀ i, 400 ≤ i → ¬ dotSpaceAt (collapseWs (pyStrip text)) i) →
        (clean_and_highlight_text text query).length = 503) ∧
      (∀ i, 400 ≤ i → dotSpaceAt (collapseWs (pyStrip text)) i →
        (∀ j, j < i → 400 ≤ j → ¬ dotSpaceAt (collapseWs (pyStrip text)) j) →
        clean_and_highlight_text text query =
          (collapseWs (pyStrip text)).take (i + 1) ++ pystr "...")) := by
  constructor
  · intro h
    simp [clean_and_highlight_text, Nat.not_lt.mpr h]
  · intro h500
    constructor
    · intro hnone
      have hfind : pyFindSubFrom (collapseWs (pyStrip text)) (pystr ". ") 400 = none := by
        unfold pyFindSubFrom
        apply pyFindSubAux_eq_none
        intro j hj _
        rw [← Bool.not_eq_true]
        intro hpre
        exact hnone j hj ((dotSpace_isPrefixOf _ j).mp hpre)
      simp only [clean_and_highlight_text, if_pos h500, hfind]
      simp [List.length_take, Nat.min_eq_left (Nat.le_of_lt h500), pystr]
    · intro i hi hds hmin
      have hjlt : i < (collapseWs (pyStrip text)).length := by
        by_contra hc
        have hd := hds.1
        rw [List.getElem?_eq_none (by omega)] at hd
        exact Option.noConfusion hd
      have hfind : pyFindSubFrom (collapseWs (pyStrip text)) (pystr ". ") 400 = some i := by
        unfold pyFindSubFrom
        apply pyFindSubAux_eq_some
        · exact (dotSpace_isPrefixOf _ i).mpr hds
        · exact hi
        · omega
        · intro k hk1 hk2
          rw [← Bool.not_eq_true]
          intro hpre
          exact hmin k hk1 hk2 ((dotSpace_isPrefixOf _ k).mp hpre)
      have h300 : 300 < i := by omega
      simp only [clean_and_highlight_text, if_pos h500, hfind, if_pos h300]

/-- Witness input for the amended cleanup behaviour: 501 characters with
the first post-400 sentence boundary at index 420. -/
def c7WitnessText : List Char := List.replicate 420 'a' ++ pystr ". " ++ List.replicate 79 'b'

instance dotSpaceAtDecidable (t : List Char) (i : Nat) : Decidable (dotSpaceAt t i) :=
  inferInstanceAs (Decidable (t[i]? = some '.' ∧ t[i + 1]? = some ' '))

set_option maxRecDepth 40000 in
theorem clean_text_c7_amended_witness :
    clean_and_highlight_text c7WitnessText (pystr "q") =
      (collapseWs (pyStrip c7WitnessText)).take (420 + 1) ++ pystr "..." :=
  ((clean_text_c7_amended c7WitnessText (pystr "q")).2 (by decide)).2 420 (by decide)
    (by decide) (by decide)

/-- The float score 0.9 as an exact rational. -/
def q0p9 : ℚ := ⟨9, 10, by norm_num, by norm_num⟩

/-- The float score 0.7 as an exact rational. -/
def q0p7 : ℚ := ⟨7, 10, by norm_num, by norm_num⟩

/-- The configured near-duplicate threshold 0.8 as an exact rational. -/
def q0p8 : ℚ := ⟨4, 5, by norm_num, by norm_num⟩

/-- A raw hit survives the per-hit gates of the `semantic_search` loop iff
its document row exists and its text passes the relevance gate. -/
def hitEligible (db : List Char → Option DocInfo) (query : List Char) (h : RawHit) : Bool :=
  (db h.document_id).isSome && is_relevant_content h.text query

/-- The output record `r` is exactly the enhanced result assembled from
the first hit in raw order that passes the gates for its document: `raw`
splits around an eligible hit `h` whose document row is `doc`, `r` is the
result `semantic_search` builds from `h` and `doc` (same id, score,
document id and chunk index, cleaned text, denormalized filename and
type), and every earlier hit of the same document is ineligible. -/
def FirstEligibleSurvivor (db : List Char → Option DocInfo) (query : List Char)
    (raw : List RawHit) (r : SearchResult) : Prop :=
  ∃ l1 h l2 doc, raw = l1 ++ h :: l2 ∧ db h.document_id = some doc ∧
    hitEligible db query h = true ∧ r = mkSearchResult h doc query ∧
    ∀ h2 ∈ l1, h2.document_id = h.document_id → hitEligible db query h2 = false

theorem semanticSearchLoop_sound (db : List Char → Option DocInfo) (query : List Char)
    (top_k : Nat) (raw : List RawHit) :
    ∀ (rest done : List RawHit) (seen : List (List Char)) (results : List SearchResult),
      raw = done ++ rest →
      (∀ r ∈ results, r.document_id ∈ seen) →
      ((results.map (fun r => r.document_id)).Nodup) →
      (∀ h2 ∈ done, hitEligible db query h2 = true → h2.document_id ∈ seen) →
      (∀ r ∈ results, FirstEligibleSurvivor db query raw r) →
      (((semanticSearchLoop db query top_k rest seen results).map (fun r => r.document_id)).Nodup ∧
        ∀ r ∈ semanticSearchLoop db query top_k rest seen results,
          FirstEligibleSurvivor db query raw r) := by
  intro rest
  induction rest with
  | nil =>
    intro done seen results _ _ hnodup _ hres
    exact ⟨hnodup, hres⟩
  | cons h t ih =>
    intro done seen results hraw hseen hnodup hdone hres
    have hraw2 : raw = (done ++ [h]) ++ t := by
      rw [hraw, List.append_assoc]
      rfl
    by_cases hmem : h.document_id ∈ seen
    · simp only [semanticSearchLoop, if_pos hmem]
      refine ih (done ++ [h]) seen results hraw2 hseen hnodup ?_ hres
      intro h2 hh2 helig
      rcases List.mem_append.mp hh2 with hold | hnew
      · exact hdone h2 hold helig
      · rw [List.mem_singleton.mp hnew]
        exact hmem
    · cases hdb : db h.document_id with
      | none =>
        simp only [semanticSearchLoop, if_neg hmem, hdb]
        refine ih (done ++ [h]) seen results hraw2 hseen hnodup ?_ hres
        intro h2 hh2 helig
        rcases List.mem_append.mp hh2 with hold | hnew
        · exact hdone h2 hold helig
        · rw [List.mem_singleton.mp hnew] at helig ⊢
          rw [hitEligible, hdb] at helig
          exact absurd helig (by simp)
      | some doc =>
        by_cases hrel : is_relevant_content h.text query = true
        · have helig : hitEligible db query h = true := by
            simp [hitEligible, hdb, hrel]
          have hfirst : FirstEligibleSurvivor db query raw (mkSearchResult h doc query) := by
            refine ⟨done, h, t, doc, hraw, hdb, helig, rfl, ?_⟩
            intro h2 hh2 hdid
            by_contra hc
            have : hitEligible db query h2 = true := by
              revert hc
              cases hitEligible db query h2 <;> simp
            have := hdone h2 hh2 this
            rw [hdid] at this
            exact hmem this
          have hnotin : h.document_id ∉ results.map (fun r => r.document_id) := by
            intro hin
            rcases List.mem_map.mp hin with ⟨r, hr, hrd⟩
            exact hmem (hrd ▸ hseen r hr)
          have hnodup2 :
              (((results ++ [mkSearchResult h doc query]).map (fun r => r.document_id)).Nodup) := by
            rw [List.map_append]
            rw [List.nodup_append]
            refine ⟨hnodup, List.nodup_singleton _, ?_⟩
            intro d hd hds
            have : d = h.document_id := by
              simpa [mkSearchResult] using hds
            rw [this] at hd
            exact hnotin hd
          have hres2 : ∀ r ∈ results ++ [mkSearchResult h doc query],
              FirstEligibleSurvivor db query raw r := by
            intro r hr
            rcases List.mem_append.mp hr with hold | hnew
            · exact hres r hold
            · rw [List.mem_singleton.mp hnew]
              exact hfirst
          simp only [semanticSearchLoop, if_neg hmem, hdb, if_pos hrel]
          by_cases hbreak : top_k ≤ (results ++ [mkSearchResult h doc query]).length
          · simp only [if_pos hbreak]
            exact ⟨hnodup2, hres2⟩
          · simp only [if_neg hbreak]
            refine ih (done ++ [h]) (h.document_id :: seen)
              (results ++ [mkSearchResult h doc query]) hraw2 ?_ hnodup2 ?_ hres2
            · intro r hr
              rcases List.mem_append.mp hr with hold | hnew
              · exact List.mem_cons_of_mem _ (hseen r hold)
              · rw [List.mem_singleton.mp hnew]
                exact List.mem_cons_self _ _
            · intro h2 hh2 helig2
              rcases List.mem_append.mp hh2 with hold | hnew
              · exact List.mem_cons_of_mem _ (hdone h2 hold helig2)
              · rw [List.mem_singleton.mp hnew]
                exact List.mem_cons_self _ _
        · simp only [semanticSearchLoop, if_neg hmem, hdb, if_neg hrel]
          refine ih (done ++ [h]) seen results hraw2 hseen hnodup ?_ hres
          intro h2 hh2 helig
          rcases List.mem_append.mp hh2 with hold | hnew
          · exact hdone h2 hold helig
          · rw [List.mem_singleton.mp hnew] at helig ⊢
            rw [hitEligible] at helig
            exact absurd (Bool.and_eq_true_iff.mp helig).2 hrel

/-- C5 amended: across the whole `semantic_search` result assembly — the
dedup/filter loop followed by the descending re-sort — at most one result
per source document survives (the document ids of the output are pairwise
distinct), and every surviving result IS the enhanced result assembled
from the first hit in raw order that passes the document-existence and
relevance gates for its document: its id, score, document id, chunk index
and cleaned text all come from that hit, and every earlier hit of the
same document is ineligible. (When the first raw occurrence of a document
fails the relevance gate, the document is NOT marked seen, so the
survivor need not be the first — i.e. highest scoring — raw occurrence;
see the counterexample.) -/
theorem semantic_search_dedup_amended (raw : List RawHit) (db : List Char → Option DocInfo)
    (query : List Char) (top_k : Nat) :
    ((semantic_search_results raw db query top_k).map (fun r => r.document_id)).Nodup ∧
    ∀ r ∈ semantic_search_results raw db query top_k,
      FirstEligibleSurvivor db query raw r := by
  have hloop := semanticSearchLoop_sound db query top_k raw raw [] [] [] (by simp)
    (by intro r hr; cases hr) (by simp) (by intro h2 hh2; cases hh2)
    (by intro r hr; cases hr)
  have hperm : sortByScoreDesc (semanticSearchLoop db query top_k raw [] []) |>.Perm
      (semanticSearchLoop db query top_k raw [] []) :=
    List.perm_insertionSort _ _
  constructor
  · exact ((hperm.map (fun r => r.document_id)).nodup_iff).mpr hloop.1
  · intro r hr
    exact hloop.2 r (hperm.mem_iff.mp hr)

/-- Two raw hits for the same document "A", in descending score order:
the 0.9 hit has a 4-character text (failing the 20-character minimum of
the relevance gate), the 0.7 hit has a relevant text. -/
def c5RawHits : List RawHit :=
  [⟨pystr "pt1", q0p9, pystr "A", pystr "tiny", 0, none, none⟩,
   ⟨pystr "pt2", q0p7, pystr "A", pystr "hello this is relevant text", 1, none, none⟩]

/-- Document table for the C5 scenario: document "A" exists. -/
def c5Db : List Char → Option DocInfo :=
  fun d => if d = pystr "A" then some ⟨pystr "a.txt", pystr "text/plain"⟩ else none

set_option maxRecDepth 4000 in
/-- C5 counterexample: both raw hits belong to document "A" with scores
0.9 then 0.7; the 0.9 hit is skipped by the relevance gate WITHOUT the
document being marked seen, so the survivor for document "A" is the
second, 0.7-scoring occurrence — not the first (highest-scoring) one, and
not the 0.9 hit the claim says is the unique survivor. -/
theorem semantic_search_c5_counterexample :
    (semantic_search_results c5RawHits c5Db (pystr "hello") 5).map
        (fun r => (r.document_id, r.score)) = [(pystr "A", q0p7)] ∧
    c5RawHits.head?.map (fun h => (h.document_id, h.score)) = some (pystr "A", q0p9) ∧
    q0p7 ≠ q0p9 := by
  exact ⟨by decide, by decide, by decide⟩

/-- Single eligible raw hit used to witness the amended C5 theorem. -/
def c5WitnessRaw : List RawHit :=
  [⟨pystr "pt9", 1, pystr "B", pystr "hello this is relevant text", 0, none, none⟩]

/-- Document table for the witness scenario: document "B" exists. -/
def c5WitnessDb : List Char → Option DocInfo :=
  fun d => if d = pystr "B" then some ⟨pystr "b.txt", pystr "text/plain"⟩ else none

/-- The enriched result that `semantic_search` assembles for the witness hit. -/
def c5WitnessResult : SearchResult :=
  ⟨pystr "pt9", 1, pystr "B", pystr "hello this is relevant text", 0, none, none,
    pystr "b.txt", pystr "text/plain"⟩

set_option maxRecDepth 4000 in
theorem semantic_search_dedup_amended_witness :
    FirstEligibleSurvivor c5WitnessDb (pystr "hello") c5WitnessRaw c5WitnessResult := by
  have hm : c5WitnessResult ∈ semantic_search_results c5WitnessRaw c5WitnessDb (pystr "hello") 5 := by
    decide
  exact (semantic_search_dedup_amended c5WitnessRaw c5WitnessDb (pystr "hello") 5).2
    c5WitnessResult hm

/-!
RAG orchestrator: `RAGService` (backend/app/services/rag_service.py) and
`LLMService.generate_response` (backend/app/services/llm_service.py).
The external effects — the awaited LLM client call and the vector
search — are parameters of the embedding.
-/

/-- `RAGService._calculate_text_similarity(text1, text2)`: token-set
Jaccard similarity of the lowercase word sets. `mkRat` is exact rational
division of the two set cardinalities. -/
def calculate_text_similarity (text1 text2 : List Char) : ℚ :=
  let words1 := (pySplit (pyLower text1)).eraseDups
  let words2 := (pySplit (pyLower text2)).eraseDups
  if words1.isEmpty || words2.isEmpty then 0
  else
    let inter := words1.filter (fun w => words2.contains w)
    let union := words1 ++ words2.filter (fun w => !words1.contains w)
    if union.isEmpty then 0 else mkRat inter.length union.length

/-- The duplicate-removal pass of `_filter_and_rank_chunks`: a chunk is
dropped when its Jaccard similarity with one already-kept chunk exceeds
the threshold. -/
def dedupBySimilarity (thr : ℚ) : List SearchResult → List SearchResult → List SearchResult
  | [], unique => unique
  | c :: rest, unique =>
    if unique.any (fun e => thr < calculate_text_similarity c.text e.text) then
      dedupBySimilarity thr rest unique
    else dedupBySimilarity thr rest (unique ++ [c])

/-- The greedy selection loop of `_filter_and_rank_chunks`: stop at the
first chunk that would pass the max-chunk count or that would push the
total text length over the budget. -/
def selectChunks (maxChunks maxLen : Nat) : List SearchResult → Nat → Nat → List SearchResult
  | [], _, _ => []
  | c :: rest, cnt, tot =>
    if maxChunks ≤ cnt then []
    else if maxLen < tot + c.text.length then []
    else c :: selectChunks maxChunks maxLen rest (cnt + 1) (tot + c.text.length)

/-- Total text length of a chunk list (the `total_length` accumulator). -/
def contextLength (l : List SearchResult) : Nat :=
  (l.map (fun r => r.text.length)).sum

/-- `RAGService._filter_and_rank_chunks(chunks, query, max_chunks)`:
near-duplicate removal, stable descending re-sort by score, then greedy
selection bounded by `max_chunks` and by the character budget
`self.max_context_length` (here a parameter, configured 4000). -/
def filter_and_rank_chunks (chunks : List SearchResult) (maxChunks maxLen : Nat) (thr : ℚ) :
    List SearchResult :=
  if chunks.isEmpty then []
  else selectChunks maxChunks maxLen (sortByScoreDesc (dedupBySimilarity thr chunks [])) 0 0

theorem selectChunks_length_le (maxChunks maxLen : Nat) :
    ∀ (l : List SearchResult) (cnt tot : Nat),
      (selectChunks maxChunks maxLen l cnt tot).length ≤ maxChunks - cnt := by
  intro l
  induction l with
  | nil => intro cnt tot; simp [selectChunks]
  | cons c rest ih =>
    intro cnt tot
    by_cases h1 : maxChunks ≤ cnt
    · simp [selectChunks, h1]
    · by_cases h2 : maxLen < tot + c.text.length
      · simp [selectChunks, h1, h2]
      · simp only [selectChunks, if_neg h1, if_neg h2, List.length_cons]
        have := ih (cnt + 1) (tot + c.text.length)
        omega

theorem selectChunks_contextLength_le (maxChunks maxLen : Nat) :
    ∀ (l : List SearchResult) (cnt tot : Nat), tot ≤ maxLen →
      tot + contextLength (selectChunks maxChunks maxLen l cnt tot) ≤ maxLen := by
  intro l
  induction l with
  | nil => intro cnt tot h; simpa [selectChunks, contextLength] using h
  | cons c rest ih =>
    intro cnt tot h
    by_cases h1 : maxChunks ≤ cnt
    · simpa [selectChunks, h1, contextLength] using h
    · by_cases h2 : maxLen < tot + c.text.length
      · simpa [selectChunks, h1, h2, contextLength] using h
      · simp only [selectChunks, if_neg h1, if_neg h2, contextLength, List.map_cons, List.sum_cons]
        have := ih (cnt + 1) (tot + c.text.length) (by omega)
        simp only [contextLength] at this
        omega

/-- First chunk of the C9 scenario: 40 characters, score 3. -/
def c9ChunkA : SearchResult :=
  ⟨pystr "c1", 3, pystr "D1", List.replicate 40 'a', 0, none, none, pystr "d1.txt", pystr "text/plain"⟩

/-- Second chunk of the C9 scenario: 40 characters, score 2. -/
def c9ChunkB : SearchResult :=
  ⟨pystr "c2", 2, pystr "D2", List.replicate 40 'b', 0, none, none, pystr "d2.txt", pystr "text/plain"⟩

/-- Third chunk of the C9 scenario: 40 characters, score 1. -/
def c9ChunkC : SearchResult :=
  ⟨pystr "c3", 1, pystr "D3", List.replicate 40 'c', 0, none, none, pystr "d3.txt", pystr "text/plain"⟩

/-- C9: the context-budgeting stage of `_filter_and_rank_chunks` always
returns at most `max_chunks` chunks whose total text length stays within
the character budget, and on three 40-character chunks with budget 100
and max count 5 it selects exactly the two highest-scoring chunks
(40 + 40 = 80 fits, adding the third would give 120 > 100 and stops the
greedy walk). -/
theorem filter_and_rank_budget :
    (∀ (chunks : List SearchResult) (maxChunks maxLen : Nat) (thr : ℚ),
      (filter_and_rank_chunks chunks maxChunks maxLen thr).length ≤ maxChunks ∧
      contextLength (filter_and_rank_chunks chunks maxChunks maxLen thr) ≤ maxLen) ∧
    filter_and_rank_chunks [c9ChunkA, c9ChunkB, c9ChunkC] 5 100 q0p8 = [c9ChunkA, c9ChunkB] := by
  constructor
  · intro chunks maxChunks maxLen thr
    by_cases hempty : chunks.isEmpty
    · simp [filter_and_rank_chunks, hempty, contextLength]
    · simp only [filter_and_rank_chunks, hempty, Bool.false_eq_true, if_false]
      constructor
      · have := selectChunks_length_le maxChunks maxLen
          (sortByScoreDesc (dedupBySimilarity thr chunks [])) 0 0
        omega
      · have := selectChunks_contextLength_le maxChunks maxLen
          (sortByScoreDesc (dedupBySimilarity thr chunks [])) 0 0 (by omega)
        omega
  · decide

/-- The two provider variants of `LLMProvider` (llm_service.py). -/
inductive LLMProvider where
  | gemini
  | ollama
deriving DecidableEq

/-- The `.value` of an `LLMProvider` enum member. -/
def providerValue : LLMProvider → List Char
  | .gemini => pystr "gemini"
  | .ollama => pystr "ollama"

/-- The result dict of `LLMService.generate_response`. -/
structure GenerationResult where
  response : List Char
  provider : List Char
  tokens : Nat
  success : Bool
  error : Option (List Char)
deriving DecidableEq

/-- `LLMService.generate_response(messages, provider, ...)`: fall back to
the default provider, raise (model: `Except.error`) when the chosen
provider is not among the initialized clients, then run the client call
(its outcome is the `clientOutcome` parameter — the awaited network
call). A client exception is caught and turned into a failure dict whose
response text is `"Error: "` plus the exception text, with `tokens = 0`,
`success = False` and the `error` field set; a successful call yields
the response with a whitespace-split token estimate. -/
def llm_generate_response (clients : List LLMProvider) (defaultProvider : LLMProvider)
    (provider : Option LLMProvider) (clientOutcome : Except (List Char) (List Char)) :
    Except (List Char) GenerationResult :=
  let p := provider.getD defaultProvider
  if clients.contains p then
    match clientOutcome with
    | .ok response =>
      .ok ⟨response, providerValue p, (pySplit response).length, true, none⟩
    | .error e =>
      .ok ⟨pystr "Error: " ++ e, providerValue p, 0, false, some e⟩
  else
    .error (pystr "Provider " ++ providerValue p ++ pystr " not available")

/-- The parameter list of `SearchService.semantic_search` (self excluded):
a single required parameter `request` with no default. -/
def semantic_search_params : List (List Char) := [pystr "request"]

/-- The keyword arguments `RAGService._retrieve_context` passes in
`self.search_service.semantic_search(query=..., collection_id=..., limit=...)`. -/
def retrieve_context_call_kwargs : List (List Char) :=
  [pystr "query", pystr "collection_id", pystr "limit"]

/-- CPython keyword-argument binding for a signature whose parameters are
all required and positional-or-keyword, called with keyword arguments
only: the call binds iff every keyword names a parameter (else
`TypeError: unexpected keyword argument`) and every parameter is supplied
(else `TypeError: missing required argument`). -/
def pythonCallBindsOk (params kwargs : List (List Char)) : Bool :=
  kwargs.all (fun k => params.contains k) && params.all (fun p => kwargs.contains p)

/-- The `semantic_search(query=..., collection_id=..., limit=...)` call as
issued by `_retrieve_context`: when the binding fails — which it does,
since `semantic_search` only accepts `request` — the call raises a
`TypeError` before the body runs. -/
def callSemanticSearchWithKwargs (raw : List RawHit) (db : List Char → Option DocInfo)
    (query : List Char) (limit : Nat) : Except (List Char) (List SearchResult) :=
  if pythonCallBindsOk semantic_search_params retrieve_context_call_kwargs then
    .ok (semantic_search_results raw db query limit)
  else
    .error (pystr "TypeError: semantic_search() got an unexpected keyword argument")

/-- `RAGService._retrieve_context(query, collection_id, top_k)`: the
`try` block calls `semantic_search` with keyword arguments and filters
the result; `except Exception` returns the empty list. The configured
`max_context_length = 4000` and `chunk_overlap_threshold = 0.8` feed the
filter stage. -/
def retrieve_context (raw : List RawHit) (db : List Char → Option DocInfo)
    (query : List Char) (top_k : Nat) : List SearchResult :=
  match callSemanticSearchWithKwargs raw db query (top_k * 2) with
  | .error _ => []
  | .ok rs => filter_and_rank_chunks rs top_k 4000 q0p8

/-- A role-tagged chat message. -/
structure ChatMessage where
  role : List Char
  content : List Char
deriving DecidableEq

/-- The generic no-context system prompt of `_build_system_prompt`
(returned whenever zero chunks were retrieved). -/
def genericSystemPrompt : List Char :=
  pystr "You are a helpful AI assistant. Answer the user\x27s questions to the best of your ability. \n            If you don\x27t know something, please say so honestly."

/-- Python `"\n\n".join(...)`. -/
def joinDoubleNewline : List (List Char) → List Char
  | [] => []
  | [x] => x
  | x :: xs => x ++ pystr "\n\n" ++ joinDoubleNewline xs

/-- Leading part of the context-bearing system prompt. -/
def ragPromptPrefix : List Char :=
  pystr "You are a helpful AI assistant that answers questions based on the provided document context.\n\nINSTRUCTIONS:\n1. Use the provided context to answer the user\x27s question accurately\n2. If the answer is not in the provided context, say so honestly\n3. When possible, mention which document(s) your answer comes from\n4. Be concise but thorough in your responses\n5. If you quote directly from the documents, use quotation marks\n\nCONTEXT FROM DOCUMENTS:\n"

/-- Trailing part of the context-bearing system prompt. -/
def ragPromptSuffix : List Char :=
  pystr "\n\nRemember: Base your answers primarily on the provided context. If the context doesn\x27t contain relevant information, let the user know."

/-- `RAGService._build_system_prompt(context_chunks)`. -/
def build_system_prompt (context_chunks : List SearchResult) : List Char :=
  if context_chunks.isEmpty then genericSystemPrompt
  else
    ragPromptPrefix ++
      joinDoubleNewline (context_chunks.map (fun chunk =>
        pystr "Document: " ++ chunk.document_filename ++ pystr "\nContent: " ++ chunk.text)) ++
      ragPromptSuffix

/-- `RAGService._build_conversation_messages(query, context_chunks,
conversation_history)`: system prompt, then the last 10 history turns in
order, then the user query. -/
def build_conversation_messages (query : List Char) (context_chunks : List SearchResult)
    (conversation_history : List ChatMessage) : List ChatMessage :=
  ⟨pystr "system", build_system_prompt context_chunks⟩ ::
    (conversation_history.drop (conversation_history.length - 10) ++ [⟨pystr "user", query⟩])

/-- The fields of `schemas.chat.ChatRequest` the orchestrator reads. -/
structure ChatRequest where
  message : List Char
  provider : Option LLMProvider
  max_results : Option Nat
  conversation_history : List ChatMessage

/-- `schemas.chat.ChatResponse` (metadata/timestamp omitted; no claim
touches them). -/
structure ChatResponse where
  message : List Char
  sources : List SearchResult
  provider : List Char
  tokens_used : Nat
  success : Bool
  error : Option (List Char)
deriving DecidableEq

/-- The apology text of the orchestrator-level exception handler. -/
def apologyMessage : List Char :=
  pystr "I apologize, but I encountered an error while processing your request. Please try again."

/-- Python `request.max_results or self.max_context_chunks`: `None` and
`0` both fall back to the default. -/
def pyOrNat (o : Option Nat) (dflt : Nat) : Nat :=
  match o with
  | none => dflt
  | some 0 => dflt
  | some (k + 1) => k + 1

/-- `RAGService.chat_with_documents(request, collection_id)`: retrieve
context (which swallows its own exceptions), build the messages, generate
via `LLMService`, and package a `ChatResponse`; the surrounding
`except Exception` converts any escaped exception (model: the
`Except.error` of `llm_generate_response`, raised when the requested
provider is unavailable) into an apologetic failure response. The error
field is copied from the generation dict only when `success` is false. -/
def chat_with_documents (request : ChatRequest) (raw : List RawHit)
    (db : List Char → Option DocInfo) (clients : List LLMProvider)
    (defaultProvider : LLMProvider) (clientOutcome : Except (List Char) (List Char)) :
    ChatResponse :=
  let context_chunks := retrieve_context raw db request.message (pyOrNat request.max_results 5)
  let _messages := build_conversation_messages request.message context_chunks
    request.conversation_history
  match llm_generate_response clients defaultProvider request.provider clientOutcome with
  | .ok llm =>
    { message := llm.response, sources := context_chunks, provider := llm.provider,
      tokens_used := llm.tokens, success := llm.success,
      error := if llm.success then none else llm.error }
  | .error e =>
    { message := apologyMessage, sources := [], provider := pystr "error",
      tokens_used := 0, success := false, error := some e }

/-- C1: the keyword call `semantic_search(query=..., collection_id=...,
limit=...)` cannot bind to the signature `semantic_search(self, request)`,
so `_retrieve_context` always catches the `TypeError` and returns the
empty list; consequently every chat response carries an empty sources
list and the conversation always opens with the generic no-context
system prompt, regardless of the indexed documents. -/
theorem retrieve_context_always_empty_c1 :
    pythonCallBindsOk semantic_search_params retrieve_context_call_kwargs = false ∧
    (∀ (raw : List RawHit) (db : List Char → Option DocInfo) (query : List Char) (top_k : Nat),
      retrieve_context raw db query top_k = []) ∧
    (∀ (request : ChatRequest) (raw : List RawHit) (db : List Char → Option DocInfo)
      (clients : List LLMProvider) (dflt : LLMProvider)
      (clientOutcome : Except (List Char) (List Char)),
      (chat_with_documents request raw db clients dflt clientOutcome).sources = []) ∧
    (∀ (query : List Char) (raw : List RawHit) (db : List Char → Option DocInfo) (top_k : Nat)
      (hist : List ChatMessage),
      (build_conversation_messages query (retrieve_context raw db query top_k) hist).head? =
        some ⟨pystr "system", genericSystemPrompt⟩) := by
  have hbind : pythonCallBindsOk semantic_search_params retrieve_context_call_kwargs = false := by
    decide
  have hretr : ∀ (raw : List RawHit) (db : List Char → Option DocInfo) (query : List Char)
      (top_k : Nat), retrieve_context raw db query top_k = [] := by
    intro raw db query top_k
    simp [retrieve_context, callSemanticSearchWithKwargs, hbind]
  refine ⟨hbind, hretr, ?_, ?_⟩
  · intro request raw db clients dflt clientOutcome
    simp only [chat_with_documents, hretr]
    cases llm_generate_response clients dflt request.provider clientOutcome <;> rfl
  · intro query raw db top_k hist
    simp [build_conversation_messages, build_system_prompt, hretr]

/-- Concrete chat response for the C4 scenario: the provider is
available, and the awaited client call raises
`Exception("Gemini API error: boom")`. -/
def c4Response : ChatResponse :=
  chat_with_documents ⟨pystr "hi", some .gemini, none, []⟩ [] (fun _ => none)
    [LLMProvider.gemini] .gemini (.error (pystr "Gemini API error: boom"))

/-- C4 counterexample: when the selected provider's generation call
raises, the packaged response has `success = false` and a non-empty error
field, but its message is `"Error: "` followed by the provider error —
NOT the generic apology message the claim requires (the apology only
appears when an exception escapes to the outer handler, e.g. for an
unavailable provider). -/
theorem chat_c4_counterexample :
    c4Response.success = false ∧
    c4Response.message = pystr "Error: Gemini API error: boom" ∧
    c4Response.message ≠ apologyMessage ∧
    c4Response.error = some (pystr "Gemini API error: boom") := by
  exact ⟨by decide, by decide, by decide, by decide⟩

/-- C4 amended: when the selected provider is available and its
generation call raises with (non-empty) exception text `e`,
`chat_with_documents` returns — it cannot propagate an exception, being
a total function of the modelled outcomes — a response with
`success = false`, error field `e` (non-empty; the concrete clients
always raise with a `"Gemini API error: "` / `"Ollama API error: "`
prefix), and the message `"Error: "` plus `e` rather than the generic
apology, which is reserved for exceptions reaching the outer handler. -/
theorem chat_c4_amended (request : ChatRequest) (raw : List RawHit)
    (db : List Char → Option DocInfo) (clients : List LLMProvider) (dflt : LLMProvider)
    (e : List Char) (hne : e ≠ [])
    (havail : clients.contains ((request.provider).getD dflt) = true) :
    (chat_with_documents request raw db clients dflt (.error e)).success = false ∧
    (chat_with_documents request raw db clients dflt (.error e)).error = some e ∧
    (chat_with_documents request raw db clients dflt (.error e)).error ≠ some [] ∧
    (chat_with_documents request raw db clients dflt (.error e)).message =
      pystr "Error: " ++ e ∧
    (chat_with_documents request raw db clients dflt (.error e)).message ≠ apologyMessage := by
  have hmem : (request.provider.getD dflt) ∈ clients := by
    simpa using havail
  have hgen : llm_generate_response clients dflt request.provider (.error e) =
      .ok ⟨pystr "Error: " ++ e, providerValue ((request.provider).getD dflt), 0, false, some e⟩ := by
    simp [llm_generate_response, havail, hmem]
  have hne2 : pystr "Error: " ++ e ≠ apologyMessage := by
    intro hmsg
    have hhead := congrArg List.head? hmsg
    rw [show (pystr "Error: " ++ e).head? = some 'E' from rfl,
      show apologyMessage.head? = some 'I' from rfl] at hhead
    exact absurd (Option.some.inj hhead) (by decide)
  have hne3 : (some e : Option (List Char)) ≠ some [] := by
    intro hsome
    exact hne (Option.some.inj hsome)
  refine ⟨?_, ?_, ?_, ?_, ?_⟩ <;> simp only [chat_with_documents, hgen] <;>
    first
    | rfl
    | exact hne2
    | exact hne3

theorem chat_c4_amended_witness :
    (chat_with_documents ⟨pystr "hi", some .ollama, none, []⟩ [] (fun _ => none)
        [LLMProvider.ollama] .ollama (.error (pystr "Ollama API error: x"))).success = false ∧
    (chat_with_documents ⟨pystr "hi", some .ollama, none, []⟩ [] (fun _ => none)
        [LLMProvider.ollama] .ollama (.error (pystr "Ollama API error: x"))).error =
      some (pystr "Ollama API error: x") ∧
    (chat_with_documents ⟨pystr "hi", some .ollama, none, []⟩ [] (fun _ => none)
        [LLMProvider.ollama] .ollama (.error (pystr "Ollama API error: x"))).error ≠ some [] ∧
    (chat_with_documents ⟨pystr "hi", some .ollama, none, []⟩ [] (fun _ => none)
        [LLMProvider.ollama] .ollama (.error (pystr "Ollama API error: x"))).message =
      pystr "Error: " ++ pystr "Ollama API error: x" ∧
    (chat_with_documents ⟨pystr "hi", some .ollama, none, []⟩ [] (fun _ => none)
        [LLMProvider.ollama] .ollama (.error (pystr "Ollama API error: x"))).message ≠
      apologyMessage :=
  chat_c4_amended ⟨pystr "hi", some .ollama, none, []⟩ [] (fun _ => none)
    [LLMProvider.ollama] .ollama (pystr "Ollama API error: x") (by decide) (by decide)
